import Mathlib

/-! Shallow embedding of `src/find_my_photos.py`.

Python strings are modelled by Lean `String` (ASCII range), Python floats by
`ℚ` (so the face-distance test `norm(a - b) <= 0.6` is expressed through the
squared distance against `(3/5)^2 = 9/25`), and filesystem effects by explicit
state passing.  The external collaborators (numpy persistence, the
face_recognition encoder, the OS directory listing, shutil copies, uuid) enter
as explicit inputs: a `StoredFile` for the encodings file on disk, a listing of
`(filename, FileResult)` pairs for the gallery directory, a `copyOk` predicate
for which `shutil.copy` calls succeed, and a hex string for the uuid suffix. -/

/-- Configuration constant `SOURCE_PHOTOS_DIR` from the source. -/
def SOURCE_PHOTOS_DIR : String := "all_photos"

/-- Configuration constant `OUTPUT_BASE_DIR` from the source. -/
def OUTPUT_BASE_DIR : String := "sorted_user_photos"

/-- Configuration constant `UNKNOWN_FACE_DIR_NAME` from the source. -/
def UNKNOWN_FACE_DIR_NAME : String := "unknown_user"

/-- Symbolic model of the status strings the program produces.  Each
constructor stands for one message text built in the source; dynamic values
interpolated into the text appear as constructor arguments.  `emptyMsg` is the
empty string `""` returned by the validators on success. -/
inductive Msg where
  | emptyMsg
  | started
  | invalidPhone
  | invalidEmail
  | selfieMissing
  | inputsValidated
  | encodingStatus (m : Msg)
  | loadNotFound
  | loadError
  | loadedOk (n : Nat)
  | loadedEmpty
  | rescanNote
  | srcDirError
  | genReport (m : Msg)
  | genComplete (nEnc nProc nSkip : Nat)
  | genEmptyNote
  | noEncodingsWarning
  | processingSelfie
  | selfieNoFace
  | selfieOk
  | noKnownNoMatch
  | searching
  | noMatches
  | matchFound (n : Nat)
  | copyReport (m : Msg)
  | copySuccess (n : Nat) (folder : String)
  | copyNone (folder : String)
  | zipped
  | zipNoFilesInDir
  | zipNothing
  | zipError
  deriving DecidableEq, Repr

/-- The messages that report an error aborting the request (the strings the
handler returns from its early-return paths). -/
def Msg.isErr : Msg → Bool
  | .invalidPhone => true
  | .invalidEmail => true
  | .selfieMissing => true
  | .srcDirError => true
  | .selfieNoFace => true
  | _ => false

/-- Python regex class `\s` (ASCII range): space, tab, newline, carriage
return, vertical tab, form feed.  Also what `str.strip()` removes. -/
def isSpace (c : Char) : Bool :=
  c = ' ' || c = '\t' || c = '\n' || c = '\r' || c = '\x0b' || c = '\x0c'

/-- Python regex class `\w` (ASCII range): alphanumeric or underscore. -/
def isWordChar (c : Char) : Bool := c.isAlphanum || c = '_'

/-- Characters kept by `re.sub(r'[^\w\s-]', '', name)`. -/
def keepChar (c : Char) : Bool := isWordChar c || isSpace c || c = '-'

/-- Characters in the regex class `[-\s]`. -/
def isDashSpace (c : Char) : Bool := c = '-' || isSpace c

/-- `re.sub(r'[-\s]+', '-', _)` on a character list: every maximal run of
hyphens and whitespace becomes a single hyphen.  The flag records whether we
are inside such a run (its leading `'-'` already emitted). -/
def collapseGo : Bool → List Char → List Char
  | _, [] => []
  | inRun, c :: rest =>
    if isDashSpace c then
      if inRun then collapseGo true rest
      else '-' :: collapseGo true rest
    else c :: collapseGo false rest

/-- Python `str.strip()`: drop whitespace from both ends. -/
def stripChars (l : List Char) : List Char :=
  ((l.dropWhile isSpace).reverse.dropWhile isSpace).reverse

/-- `sanitize_foldername` from the source:
`name = re.sub(r'[^\w\s-]', '', name).strip()`, then
`name = re.sub(r'[-\s]+', '-', name)`, then
`return name if name else UNKNOWN_FACE_DIR_NAME`. -/
def sanitize_foldername (name : String) : String :=
  let cleaned := stripChars (name.data.filter keepChar)
  let collapsed := collapseGo false cleaned
  if collapsed.isEmpty then UNKNOWN_FACE_DIR_NAME else ⟨collapsed⟩

/-- `validate_phone_number` from the source: `phone.isdigit() and
len(phone) == 10` (Python `isdigit` is false on the empty string).  Returns
the success flag and the message (`""` on success). -/
def validate_phone_number (phone : String) : Bool × Msg :=
  if phone.data.all Char.isDigit && !phone.data.isEmpty && phone.data.length == 10
  then (true, Msg.emptyMsg) else (false, Msg.invalidPhone)

/-- Character class `[a-zA-Z0-9._%+-]` of the email regex. -/
def emailLocalChar (c : Char) : Bool :=
  c.isAlphanum || c = '.' || c = '_' || c = '%' || c = '+' || c = '-'

/-- Character class `[a-zA-Z0-9.-]` of the email regex. -/
def emailDomainChar (c : Char) : Bool := c.isAlphanum || c = '.' || c = '-'

/-- Split a list at the first occurrence of `t`: returns the part before and
the part after, or `none` when `t` does not occur. -/
def splitFirst (t : Char) : List Char → Option (List Char × List Char)
  | [] => none
  | x :: xs =>
    if x = t then some ([], xs)
    else (splitFirst t xs).map (fun pr => (x :: pr.1, pr.2))

/-- Full match of `^[a-zA-Z0-9._%+-]+@[a-zA-Z0-9.-]+\.[a-zA-Z]{2,}$`.
Since neither class contains `@`, the local part runs to the first `@`; since
`[a-zA-Z]` does not contain `.`, the final `\.` is the last dot.  Python `$`
also matches just before one trailing newline. -/
def emailMatch (l : List Char) : Bool :=
  match splitFirst '@' l with
  | none => false
  | some (loc, domRaw) =>
    let dom := if domRaw.getLast? = some '\n' then domRaw.dropLast else domRaw
    match splitFirst '.' dom.reverse with
    | none => false
    | some (tldRev, frontRev) =>
      !loc.isEmpty && loc.all emailLocalChar &&
      !frontRev.isEmpty && frontRev.all emailDomainChar &&
      decide (2 ≤ tldRev.length) && tldRev.all Char.isAlpha

/-- `validate_email_address` from the source: `email and re.match(regex,
email)`. -/
def validate_email_address (email : String) : Bool × Msg :=
  if !email.data.isEmpty && emailMatch email.data
  then (true, Msg.emptyMsg) else (false, Msg.invalidEmail)

/-- A face embedding: the numeric vector face_recognition returns (128
floats), modelled exactly as rationals. -/
abbrev Emb := List ℚ

/-- Squared Euclidean distance between two embeddings, the square of
`np.linalg.norm(a - b)`. -/
def sqDist (a b : Emb) : ℚ := ((a.zip b).map (fun p => (p.1 - p.2) ^ 2)).sum

/-- One entry of `face_recognition.compare_faces(known, query, tolerance=0.6)`:
Euclidean distance at most `0.6`, i.e. squared distance at most `(3/5)^2`. -/
def faceMatch (known query : Emb) : Bool := decide (sqDist known query ≤ 9 / 25)

/-- `os.path.join` for a nonempty directory path and a relative filename. -/
def pathJoin (dir fname : String) : String := dir ++ "/" ++ fname

/-- `find_matching_photos` from the source: `None` selfie or empty store give
`[]`; otherwise compare every stored embedding against the query, collect the
filenames of the matches into a set (here: `dedup`), and return the
source-directory-joined paths. -/
def find_matching_photos (selfieEncoding : Option Emb) (allKnownEncodings : List Emb)
    (allKnownFilenames : List String) (sourceImageDir : String) : List String :=
  match selfieEncoding with
  | none => []
  | some q =>
    if allKnownEncodings.isEmpty then []
    else
      let matchedNames := ((allKnownEncodings.zip allKnownFilenames).filter
        (fun pr => faceMatch pr.1 q)).map Prod.snd
      matchedNames.dedup.map (fun f => pathJoin sourceImageDir f)

/-- The encodings file on disk: absent (`FileNotFoundError` on `np.load`),
malformed (any other exception on `np.load`), or present with its two parallel
arrays. -/
inductive StoredFile where
  | absent
  | corrupt
  | data (encodings : List Emb) (filenames : List String)
  deriving DecidableEq

/-- Whether the file is absent (`not os.path.exists(ENCODINGS_FILE_PATH)`). -/
def StoredFile.isAbsent : StoredFile → Bool
  | .absent => true
  | _ => false

/-- What happens when the encoder is run on one gallery file: the decode (or
any other per-file step) raises, or it yields the detected face embeddings
(possibly none). -/
inductive FileResult where
  | decodeError
  | faces (embs : List Emb)
  deriving DecidableEq

/-- The embeddings a file contributes: none on a decode error. -/
def FileResult.facesOf : FileResult → List Emb
  | .decodeError => []
  | .faces l => l

/-- Whether processing the file raised. -/
def FileResult.isDecodeError : FileResult → Bool
  | .decodeError => true
  | .faces _ => false

/-- ASCII `str.lower()`. -/
def lowerAscii (s : String) : String := ⟨s.data.map Char.toLower⟩

/-- The extension allowlist from the source. -/
def imageExts : List String := [".png", ".jpg", ".jpeg", ".bmp", ".tiff"]

/-- `filename.lower().endswith(('.png', '.jpg', '.jpeg', '.bmp', '.tiff'))`. -/
def hasImageExt (filename : String) : Bool :=
  imageExts.any (fun ext => ext.data.isSuffixOf (lowerAscii filename).data)

/-- The accumulators of `generate_and_save_known_encodings`: the two parallel
lists plus the `files_processed` and `skipped_files` counters. -/
structure GenResult where
  encodings : List Emb
  filenames : List String
  processed : Nat
  skipped : Nat
  deriving DecidableEq, Repr

/-- The loop of `generate_and_save_known_encodings` over the directory
listing: non-image files are ignored; a raising file bumps `skipped_files`;
otherwise every detected face appends its embedding and the filename, and
`files_processed` is bumped (also when no face was detected). -/
def runGen : List (String × FileResult) → GenResult
  | [] => ⟨[], [], 0, 0⟩
  | (name, res) :: rest =>
    let r := runGen rest
    if hasImageExt name then
      match res with
      | .decodeError => ⟨r.encodings, r.filenames, r.processed, r.skipped + 1⟩
      | .faces embs =>
        ⟨embs ++ r.encodings, List.replicate embs.length name ++ r.filenames,
          r.processed + 1, r.skipped⟩
    else r

/-- `generate_and_save_known_encodings` from the source: run the loop, persist
the two parallel arrays (an empty pair is still written, so the empty store is
a valid file), and report either the completion summary or the
nothing-generated note. -/
def generate_and_save_known_encodings (listing : List (String × FileResult)) :
    GenResult × StoredFile × Msg :=
  let r := runGen listing
  (r, StoredFile.data r.encodings r.filenames,
    if r.encodings.isEmpty then Msg.genEmptyNote
    else Msg.genComplete r.encodings.length r.processed r.skipped)

/-- `load_known_encodings` from the source: absent file gives `(None, None)`
with the not-found message; any other load failure gives `(None, None)` with
the error message; a well-formed file gives its two lists (the all-empty file
takes the dedicated empty-store branch, which returns the same two empty
lists). -/
def load_known_encodings : StoredFile → Option (List Emb) × Option (List String) × Msg
  | .absent => (none, none, Msg.loadNotFound)
  | .corrupt => (none, none, Msg.loadError)
  | .data e f =>
    if e.isEmpty && f.isEmpty then (some [], some [], Msg.loadedEmpty)
    else (some e, some f, Msg.loadedOk e.length)

/-- The selfie input as the handler sees it: the Gradio image is missing, or
the encoder finds no face in it (or raises), or it yields an embedding. -/
inductive Selfie where
  | missing
  | noFace
  | face (e : Emb)
  deriving DecidableEq

/-- `load_and_encode_face` from the source: first face embedding of the image,
`None` when no face is found or an exception occurs. -/
def load_and_encode_face : Selfie → Option Emb
  | .face e => some e
  | _ => none

/-- The output filesystem, restricted to what the organizer touches: a map
from directory path to its contents (`none` = the directory does not exist,
`some s` = it exists and holds the files named in `s`). -/
def FS := String → Option (Finset String)

/-- Point update of the output filesystem. -/
def updateFS (fs : FS) (k : String) (v : Option (Finset String)) : FS :=
  fun n => if n = k then v else fs n

/-- `os.path.basename`: everything after the last slash. -/
def basename (p : String) : String :=
  ⟨p.data.foldl (fun acc c => if c = '/' then [] else acc ++ [c]) []⟩

/-- The copy loop of `create_user_folder_and_copy_photos`: for each matched
photo a successful `shutil.copy` puts its basename into the user directory
(overwriting any same-named file), records the destination path, and bumps the
counter; a failing copy is logged and skipped. -/
def copyLoop (userDir : String) (copyOk : String → Bool) :
    List String → FS → FS × List String × Nat
  | [], fs => (fs, [], 0)
  | p :: rest, fs =>
    if copyOk p then
      let fname := basename p
      let fs' := updateFS fs userDir (some (insert fname ((fs userDir).getD ∅)))
      let r := copyLoop userDir copyOk rest fs'
      (r.1, pathJoin userDir fname :: r.2.1, r.2.2 + 1)
    else copyLoop userDir copyOk rest fs

/-- Return value of the organizer: the filesystem after the run, the summary
message, the user directory, and the destination paths of the copied files. -/
structure OrganizeResult where
  fs : FS
  msg : Msg
  userDir : String
  copied : List String

/-- `create_user_folder_and_copy_photos` from the source: sanitize the
identifier into a folder name, delete the folder if it already exists
(`shutil.rmtree`), recreate it empty (`os.makedirs`), guard against a `None`
match list, then copy each matched photo. -/
def create_user_folder_and_copy_photos (userIdentifier : String)
    (matchedPhotos : Option (List String)) (baseOutputDir : String)
    (copyOk : String → Bool) (fs : FS) : OrganizeResult :=
  let folderName := sanitize_foldername userIdentifier
  let userDir := pathJoin baseOutputDir folderName
  let fs1 := if (fs userDir).isSome then updateFS fs userDir none else fs
  let fs2 := updateFS fs1 userDir (some ∅)
  let photos := matchedPhotos.getD []
  let r := copyLoop userDir copyOk photos fs2
  { fs := r.1,
    msg := if 0 < r.2.2 then Msg.copySuccess r.2.2 folderName else Msg.copyNone folderName,
    userDir := userDir,
    copied := r.2.1 }

/-- The mutable state outside the handler: the encodings file and the output
filesystem. -/
structure SysState where
  encFile : StoredFile
  outFS : FS

/-- The triple the handler returns to Gradio: status messages (the joined
status text), the gallery list (`none` = Python `None`), and the archive path
(`none` = Python `None`). -/
structure ProcOut where
  status : List Msg
  gallery : Option (List String)
  archive : Option String

/-- Step 2 of the handler (load or generate the encodings): load the file and
report; when a rescan is forced or nothing was loaded, either fail on a
missing/empty source directory (writing an empty encodings file when none
existed at all) or run the generator and persist its result.  Returns `none`
in the first component on the short-circuiting source-directory error. -/
def resolveEncodings (forceRescan : Bool)
    (srcListing : Option (List (String × FileResult))) (st : SysState) :
    Option (List Emb × List String) × List Msg × SysState :=
  let l := load_known_encodings st.encFile
  let m0 := [Msg.encodingStatus l.2.2]
  if forceRescan || l.1.isNone then
    if srcListing.getD [] = [] then
      (none, m0 ++ [Msg.rescanNote, Msg.srcDirError],
        if l.1.isNone && st.encFile.isAbsent then ⟨StoredFile.data [] [], st.outFS⟩ else st)
    else
      let g := generate_and_save_known_encodings (srcListing.getD [])
      (some (g.1.encodings, g.1.filenames),
        m0 ++ [Msg.rescanNote, Msg.genReport g.2.2], ⟨g.2.1, st.outFS⟩)
  else (some (l.1.getD [], l.2.1.getD []), m0, st)

/-- Last element of the status list (the line the joined status text ends
with); `emptyMsg` for an empty list. -/
def lastMsg (l : List Msg) : Msg := l.foldl (fun _ m => m) Msg.emptyMsg

/-- `process_request_gradio` from the source: validate phone, email and selfie
presence (each failure returns just its error string and `None, None`),
resolve the encodings (its error path returns the joined messages and
`None, None`), encode the selfie (no face returns the joined messages and
`None, None`), match, and on a nonempty match organize and zip.  The zero-match
path returns an empty gallery list (not `None`) and no archive. -/
def process_request_gradio (phoneNumber emailAddress : String) (selfie : Selfie)
    (forceRescan : Bool) (srcListing : Option (List (String × FileResult)))
    (copyOk : String → Bool) (zipOk : Bool) (uuidHex : String) (st : SysState) :
    ProcOut × SysState :=
  if !(validate_phone_number phoneNumber).1 then
    (⟨[(validate_phone_number phoneNumber).2], none, none⟩, st)
  else if !(validate_email_address emailAddress).1 then
    (⟨[(validate_email_address emailAddress).2], none, none⟩, st)
  else if selfie = Selfie.missing then (⟨[Msg.selfieMissing], none, none⟩, st)
  else
    let pre := [Msg.started, Msg.inputsValidated]
    match resolveEncodings forceRescan srcListing st with
    | (none, ms, st1) => (⟨pre ++ ms, none, none⟩, st1)
    | (some known, ms, st1) =>
      let m1 := pre ++ ms ++
        (if known.1.isEmpty then [Msg.noEncodingsWarning] else []) ++ [Msg.processingSelfie]
      match load_and_encode_face selfie with
      | none => (⟨m1 ++ [Msg.selfieNoFace], none, none⟩, st1)
      | some se =>
        let m2 := m1 ++ [Msg.selfieOk]
        let step :=
          if known.1.isEmpty then (([] : List String), m2 ++ [Msg.noKnownNoMatch])
          else (find_matching_photos (some se) known.1 known.2 SOURCE_PHOTOS_DIR,
            m2 ++ [Msg.searching])
        if step.1.isEmpty then (⟨step.2 ++ [Msg.noMatches], some [], none⟩, st1)
        else
          let sanitized := sanitize_foldername phoneNumber
          let org := create_user_folder_and_copy_photos sanitized (some step.1)
            OUTPUT_BASE_DIR copyOk st1.outFS
          let m3 := step.2 ++ [Msg.matchFound step.1.length, Msg.copyReport org.msg]
          let st2 : SysState := ⟨st1.encFile, org.fs⟩
          if org.copied.isEmpty then
            (⟨m3 ++ [Msg.zipNothing], some org.copied, none⟩, st2)
          else if (org.fs org.userDir).isSome &&
              decide ((org.fs org.userDir).getD ∅ ≠ (∅ : Finset String)) then
            if zipOk then
              (⟨m3 ++ [Msg.zipped], some org.copied,
                some (pathJoin OUTPUT_BASE_DIR
                  ("matched_photos_" ++ sanitized ++ "_" ++ uuidHex ++ ".zip"))⟩, st2)
            else (⟨m3 ++ [Msg.zipError], some org.copied, none⟩, st2)
          else (⟨m3 ++ [Msg.zipNoFilesInDir], some org.copied, none⟩, st2)

/-! ### Helper lemmas about the generator -/

/-- The two parallel lists the generator builds always have equal length (the
store invariant). -/
theorem runGen_len (l : List (String × FileResult)) :
    (runGen l).filenames.length = (runGen l).encodings.length := by
  induction l with
  | nil => rfl
  | cons hd tl ih =>
    obtain ⟨name, res⟩ := hd
    simp only [runGen]
    split
    · cases res with
      | decodeError => simpa using ih
      | faces embs => simp [ih]
    · exact ih

/-- The generator skip counter counts exactly the image files whose processing
raised. -/
theorem runGen_skipped (l : List (String × FileResult)) :
    (runGen l).skipped =
      (l.filter (fun f => hasImageExt f.1 && f.2.isDecodeError)).length := by
  induction l with
  | nil => rfl
  | cons hd tl ih =>
    obtain ⟨name, res⟩ := hd
    simp only [runGen, List.filter_cons]
    cases hImg : hasImageExt name with
    | true =>
      cases res with
      | decodeError => simp [FileResult.isDecodeError, ih]
      | faces embs => simp [FileResult.isDecodeError, ih]
    | false => simp [ih]

/-- The processed counter counts exactly the image files that decoded,
including those in which no face was found. -/
theorem runGen_processed (l : List (String × FileResult)) :
    (runGen l).processed =
      (l.filter (fun f => hasImageExt f.1 && !f.2.isDecodeError)).length := by
  induction l with
  | nil => rfl
  | cons hd tl ih =>
    obtain ⟨name, res⟩ := hd
    simp only [runGen, List.filter_cons]
    cases hImg : hasImageExt name with
    | true =>
      cases res with
      | decodeError => simp [FileResult.isDecodeError, ih]
      | faces embs => simp [FileResult.isDecodeError, ih]
    | false => simp [ih]

/-- The embeddings the generator accumulates are exactly the faces of the
image files, in listing order. -/
theorem runGen_encodings (l : List (String × FileResult)) :
    (runGen l).encodings =
      l.flatMap (fun f => if hasImageExt f.1 then f.2.facesOf else []) := by
  induction l with
  | nil => rfl
  | cons hd tl ih =>
    obtain ⟨name, res⟩ := hd
    simp only [runGen, List.flatMap_cons]
    cases hImg : hasImageExt name with
    | true =>
      cases res with
      | decodeError => simp [FileResult.facesOf, ih]
      | faces embs => simp [FileResult.facesOf, ih]
    | false => simp [ih]

/-! ### Claims about the store and the generator -/

/-- C2 counterexample: for the gallery a.jpg (one face), b.jpg (one face),
c.jpg (no face), the rebuild yields 2 embeddings but reports 0 skipped files,
not the 1 skipped file the claim states — the no-face file c.jpg is counted as
processed, only decode failures bump the skip counter. -/
theorem generate_scenario_skipped_zero :
    (generate_and_save_known_encodings [("a.jpg", FileResult.faces [[1]]),
      ("b.jpg", FileResult.faces [[2]]),
      ("c.jpg", FileResult.faces [])]).1.encodings.length = 2 ∧
    (generate_and_save_known_encodings [("a.jpg", FileResult.faces [[1]]),
      ("b.jpg", FileResult.faces [[2]]),
      ("c.jpg", FileResult.faces [])]).1.skipped = 0 ∧
    ¬ (generate_and_save_known_encodings [("a.jpg", FileResult.faces [[1]]),
      ("b.jpg", FileResult.faces [[2]]),
      ("c.jpg", FileResult.faces [])]).1.skipped = 1 := by
  decide

/-- C2 (amended): during a rebuild, every gallery file whose decoding raises
is skipped and counted as skipped (not fatal to the batch); a file in which no
faces are detected contributes no embeddings but is counted as processed, not
skipped; concretely, the gallery a.jpg (one face), b.jpg (one face), c.jpg (no
face) yields 2 embeddings, 3 processed files and 0 skipped files. -/
theorem generate_skip_counts :
    (∀ listing : List (String × FileResult),
      (generate_and_save_known_encodings listing).1.skipped =
        (listing.filter (fun f => hasImageExt f.1 && f.2.isDecodeError)).length ∧
      (generate_and_save_known_encodings listing).1.processed =
        (listing.filter (fun f => hasImageExt f.1 && !f.2.isDecodeError)).length ∧
      (generate_and_save_known_encodings listing).1.encodings =
        listing.flatMap (fun f => if hasImageExt f.1 then f.2.facesOf else [])) ∧
    (generate_and_save_known_encodings [("a.jpg", FileResult.faces [[1]]),
      ("b.jpg", FileResult.faces [[2]]),
      ("c.jpg", FileResult.faces [])]).1.encodings.length = 2 ∧
    (generate_and_save_known_encodings [("a.jpg", FileResult.faces [[1]]),
      ("b.jpg", FileResult.faces [[2]]),
      ("c.jpg", FileResult.faces [])]).1.processed = 3 ∧
    (generate_and_save_known_encodings [("a.jpg", FileResult.faces [[1]]),
      ("b.jpg", FileResult.faces [[2]]),
      ("c.jpg", FileResult.faces [])]).1.skipped = 0 := by
  refine ⟨fun listing =>
    ⟨runGen_skipped listing, runGen_processed listing, runGen_encodings listing⟩,
    by decide, by decide, by decide⟩

/-- C5: matching against an empty store returns the empty result for every
query, and matching with an absent (`None`) query embedding returns the empty
result for every store; both are ordinary returns of the total function, not
errors. -/
theorem find_matching_photos_empty_cases :
    (∀ (q : Option Emb) (fnames : List String) (dir : String),
      find_matching_photos q [] fnames dir = []) ∧
    (∀ (encs : List Emb) (fnames : List String) (dir : String),
      find_matching_photos none encs fnames dir = []) := by
  constructor
  · intro q fnames dir
    cases q <;> rfl
  · intro encs fnames dir
    rfl

/-- C6: running load on the store persisted by a build yields exactly the
same embedding list and the same filename list — in particular the same
collection of (filename, embedding) pairs. -/
theorem build_load_roundtrip (listing : List (String × FileResult)) :
    (load_known_encodings (generate_and_save_known_encodings listing).2.1).1 =
      some (generate_and_save_known_encodings listing).1.encodings ∧
    (load_known_encodings (generate_and_save_known_encodings listing).2.1).2.1 =
      some (generate_and_save_known_encodings listing).1.filenames := by
  simp only [generate_and_save_known_encodings, load_known_encodings]
  split
  next h =>
    rw [Bool.and_eq_true, List.isEmpty_eq_true, List.isEmpty_eq_true] at h
    simp [h.1, h.2]
  next h => exact ⟨rfl, rfl⟩

/-- C9: a build that finds no embeddings still persists the well-formed empty
store; load yields the stored (possibly empty) pair for a present well-formed
file and signals the absent and the malformed file with `None` results
carrying distinct messages, so never-built is distinguishable from
built-but-empty. -/
theorem store_three_cases :
    (∀ listing : List (String × FileResult),
      (generate_and_save_known_encodings listing).1.encodings = [] →
      (generate_and_save_known_encodings listing).2.1 = StoredFile.data [] []) ∧
    (∀ (e : List Emb) (f : List String),
      (load_known_encodings (StoredFile.data e f)).1 = some e ∧
      (load_known_encodings (StoredFile.data e f)).2.1 = some f) ∧
    load_known_encodings StoredFile.absent = (none, none, Msg.loadNotFound) ∧
    load_known_encodings StoredFile.corrupt = (none, none, Msg.loadError) ∧
    (load_known_encodings (StoredFile.data [] [])).1 ≠
      (load_known_encodings StoredFile.absent).1 ∧
    Msg.loadNotFound ≠ Msg.loadError := by
  refine ⟨?_, ?_, rfl, rfl, by decide, by decide⟩
  · intro listing h
    have hf : (runGen listing).filenames = [] := by
      have hl := runGen_len listing
      rw [show (runGen listing).encodings = [] from h] at hl
      exact List.eq_nil_of_length_eq_zero hl
    show StoredFile.data (runGen listing).encodings (runGen listing).filenames = _
    rw [show (runGen listing).encodings = [] from h, hf]
  · intro e f
    simp only [load_known_encodings]
    split
    next h =>
      rw [Bool.and_eq_true, List.isEmpty_eq_true, List.isEmpty_eq_true] at h
      simp [h.1, h.2]
    next h => exact ⟨rfl, rfl⟩

/-- C9 witness: a gallery whose single image contains no face builds the empty
store and persists it as a well-formed file. -/
theorem store_three_cases_witness :
    (generate_and_save_known_encodings [("c.jpg", FileResult.faces [])]).1.encodings = [] ∧
    (generate_and_save_known_encodings [("c.jpg", FileResult.faces [])]).2.1 =
      StoredFile.data [] [] :=
  ⟨by decide, store_three_cases.1 [("c.jpg", FileResult.faces [])] (by decide)⟩

/-! ### Helper lemmas about the matcher -/

/-- A squared distance is nonnegative. -/
theorem sqDist_nonneg (a b : Emb) : 0 ≤ sqDist a b := by
  apply List.sum_nonneg
  intro x hx
  rw [List.mem_map] at hx
  obtain ⟨pr, hpr, rfl⟩ := hx
  positivity

/-- The squared distance of an embedding to itself is zero. -/
theorem sqDist_self (a : Emb) : sqDist a a = 0 := by
  induction a with
  | nil => rfl
  | cons x xs ih =>
    unfold sqDist at ih ⊢
    simp only [List.zip_cons_cons, List.map_cons, List.sum_cons, ih]
    ring

/-- An embedding always matches itself. -/
theorem faceMatch_self (a : Emb) : faceMatch a a = true := by
  rw [faceMatch, decide_eq_true_iff, sqDist_self]
  norm_num

/-- The boolean comparison of the code holds exactly when the Euclidean
distance between the embeddings is at most `0.6`. -/
theorem faceMatch_iff_dist (a b : Emb) :
    faceMatch a b = true ↔ Real.sqrt ((sqDist a b : ℚ) : ℝ) ≤ 0.6 := by
  rw [faceMatch, decide_eq_true_iff,
    Real.sqrt_le_left (by norm_num : (0 : ℝ) ≤ 0.6),
    show ((0.6 : ℝ)) ^ 2 = ((9 / 25 : ℚ) : ℝ) by norm_num]
  exact ⟨fun h => by exact_mod_cast h, fun h => by exact_mod_cast h⟩

/-- Joining two filenames onto the same directory gives the same path only
for the same filename. -/
theorem pathJoin_inj (dir : String) {a b : String}
    (h : pathJoin dir a = pathJoin dir b) : a = b := by
  unfold pathJoin at h
  apply String.ext
  have hd := congrArg String.data h
  simp only [String.data_append] at hd
  exact List.append_cancel_left hd

/-- Membership in the matcher result: exactly the directory-joined filenames
of stored records whose embedding matches the query. -/
theorem mem_find_matching (q : Emb) (encs : List Emb) (fnames : List String)
    (dir p : String) (hlen : encs.length = fnames.length) :
    p ∈ find_matching_photos (some q) encs fnames dir ↔
      ∃ i : Fin encs.length,
        faceMatch (encs.get i) q = true ∧
        p = pathJoin dir (fnames.get ⟨i.1, hlen ▸ i.2⟩) := by
  simp only [find_matching_photos]
  split
  next hE =>
    rw [List.isEmpty_eq_true] at hE
    subst hE
    simp
  next hE =>
    constructor
    · intro hp
      rw [List.mem_map] at hp
      obtain ⟨f, hf, rfl⟩ := hp
      rw [List.mem_dedup, List.mem_map] at hf
      obtain ⟨pr, hpr, rfl⟩ := hf
      rw [List.mem_filter] at hpr
      obtain ⟨hz, hm⟩ := hpr
      rw [List.mem_iff_getElem] at hz
      obtain ⟨i, hi, hpr_eq⟩ := hz
      have hi' : i < encs.length := by
        rw [List.length_zip, hlen, min_self] at hi
        rw [hlen]
        exact hi
      rw [List.getElem_zip] at hpr_eq
      subst hpr_eq
      exact ⟨⟨i, hi'⟩, hm, rfl⟩
    · rintro ⟨i, hm, rfl⟩
      rw [List.mem_map]
      refine ⟨fnames.get ⟨i.1, hlen ▸ i.2⟩, ?_, rfl⟩
      rw [List.mem_dedup, List.mem_map]
      refine ⟨(encs.get i, fnames.get ⟨i.1, hlen ▸ i.2⟩), ?_, rfl⟩
      rw [List.mem_filter]
      refine ⟨?_, hm⟩
      rw [List.mem_iff_getElem]
      refine ⟨i.1, ?_, ?_⟩
      · rw [List.length_zip]
        exact lt_min_iff.mpr ⟨i.2, hlen ▸ i.2⟩
      · rw [List.getElem_zip]
        rfl

/-! ### Claims about the matcher -/

/-- C1: a stored record matches exactly when the Euclidean distance between
its embedding and the query is at most 0.6; in particular a record whose
embedding equals the query (distance 0) always contributes its photo, and a
query farther than 0.6 from every stored embedding yields no matches. -/
theorem find_matching_photos_threshold (q : Emb) (encs : List Emb)
    (fnames : List String) (dir : String) (hlen : encs.length = fnames.length) :
    (∀ p, p ∈ find_matching_photos (some q) encs fnames dir ↔
      ∃ i : Fin encs.length,
        Real.sqrt ((sqDist (encs.get i) q : ℚ) : ℝ) ≤ 0.6 ∧
        p = pathJoin dir (fnames.get ⟨i.1, hlen ▸ i.2⟩)) ∧
    (∀ i : Fin encs.length, q = encs.get i →
      pathJoin dir (fnames.get ⟨i.1, hlen ▸ i.2⟩) ∈
        find_matching_photos (some q) encs fnames dir) ∧
    ((∀ i : Fin encs.length, ¬ Real.sqrt ((sqDist (encs.get i) q : ℚ) : ℝ) ≤ 0.6) →
      find_matching_photos (some q) encs fnames dir = []) := by
  refine ⟨?_, ?_, ?_⟩
  · intro p
    rw [mem_find_matching q encs fnames dir p hlen]
    exact exists_congr fun i => and_congr_left fun _ => faceMatch_iff_dist _ _
  · intro i hq
    rw [mem_find_matching q encs fnames dir _ hlen]
    refine ⟨i, ?_, rfl⟩
    rw [← hq]
    exact faceMatch_self q
  · intro hall
    rw [List.eq_nil_iff_forall_not_mem]
    intro p hp
    rw [mem_find_matching q encs fnames dir p hlen] at hp
    obtain ⟨i, hm, _⟩ := hp
    exact hall i ((faceMatch_iff_dist _ _).mp hm)

/-- C1 witness: a one-record store whose embedding equals the query produces
the record's joined path. -/
theorem find_matching_photos_threshold_witness :
    ([([0] : Emb)].length = (["x.jpg"] : List String).length) ∧
    pathJoin "all_photos" "x.jpg" ∈
      find_matching_photos (some ([0] : Emb)) [([0] : Emb)] ["x.jpg"] "all_photos" :=
  ⟨rfl,
    (find_matching_photos_threshold [0] [[0]] ["x.jpg"] "all_photos" rfl).2.1
      ⟨0, by decide⟩ rfl⟩

/-- C3: the matcher result has no duplicate entries, and the joined path of a
filename appears exactly when at least one stored record carries that filename
with an embedding within the threshold — one entry per photo even if several
of its faces match. -/
theorem find_matching_photos_dedup (q : Emb) (encs : List Emb)
    (fnames : List String) (dir : String) (hlen : encs.length = fnames.length) :
    (find_matching_photos (some q) encs fnames dir).Nodup ∧
    (∀ fname : String,
      pathJoin dir fname ∈ find_matching_photos (some q) encs fnames dir ↔
      ∃ i : Fin encs.length,
        faceMatch (encs.get i) q = true ∧ fnames.get ⟨i.1, hlen ▸ i.2⟩ = fname) := by
  constructor
  · simp only [find_matching_photos]
    split
    · exact List.nodup_nil
    · exact List.Nodup.map (fun a b h => pathJoin_inj dir h) (List.nodup_dedup _)
  · intro fname
    rw [mem_find_matching q encs fnames dir _ hlen]
    constructor
    · rintro ⟨i, hm, heq⟩
      exact ⟨i, hm, (pathJoin_inj dir heq).symm⟩
    · rintro ⟨i, hm, heq⟩
      exact ⟨i, hm, by rw [heq]⟩

/-- C3 witness: two faces of the same photo both match the query, yet the
result lists the photo once, without duplicates. -/
theorem find_matching_photos_dedup_witness :
    (([([0, 0] : Emb), ([1 / 10, 0] : Emb)]).length =
      (["a.jpg", "a.jpg"] : List String).length) ∧
    (find_matching_photos (some ([0, 0] : Emb)) [[0, 0], [1 / 10, 0]]
      ["a.jpg", "a.jpg"] "gallery").Nodup ∧
    pathJoin "gallery" "a.jpg" ∈
      find_matching_photos (some ([0, 0] : Emb)) [[0, 0], [1 / 10, 0]]
        ["a.jpg", "a.jpg"] "gallery" :=
  ⟨rfl,
    (find_matching_photos_dedup [0, 0] [[0, 0], [1 / 10, 0]] ["a.jpg", "a.jpg"]
      "gallery" rfl).1,
    ((find_matching_photos_dedup [0, 0] [[0, 0], [1 / 10, 0]] ["a.jpg", "a.jpg"]
      "gallery" rfl).2 "a.jpg").mpr
      ⟨⟨0, by decide⟩, by norm_num [faceMatch, sqDist, List.get], rfl⟩⟩

/-! ### Helper lemmas about the sanitizer -/

/-- Every character the run-collapser emits is either the replacement hyphen
or a character of the input that is not in the collapsed class. -/
theorem mem_collapseGo (b : Bool) (l : List Char) (c : Char)
    (h : c ∈ collapseGo b l) : c = '-' ∨ (c ∈ l ∧ isDashSpace c = false) := by
  induction l generalizing b with
  | nil => simp [collapseGo] at h
  | cons x xs ih =>
    cases hx : isDashSpace x with
    | true =>
      cases b with
      | true =>
        simp only [collapseGo, hx, if_true] at h
        rcases ih true h with h1 | ⟨h2, h3⟩
        · exact Or.inl h1
        · exact Or.inr ⟨List.mem_cons_of_mem x h2, h3⟩
      | false =>
        simp only [collapseGo, hx, if_true] at h
        rcases List.mem_cons.mp h with h1 | h1
        · exact Or.inl h1
        · rcases ih true h1 with h2 | ⟨h3, h4⟩
          · exact Or.inl h2
          · exact Or.inr ⟨List.mem_cons_of_mem x h3, h4⟩
    | false =>
      simp only [collapseGo, hx, Bool.false_eq_true, if_false] at h
      rcases List.mem_cons.mp h with h1 | h1
      · subst h1
        exact Or.inr ⟨List.mem_cons_self _ _, hx⟩
      · rcases ih false h1 with h2 | ⟨h3, h4⟩
        · exact Or.inl h2
        · exact Or.inr ⟨List.mem_cons_of_mem x h3, h4⟩

/-- No two adjacent characters of the list are both hyphens (the observable
effect of collapsing every `[-\s]+` run into one hyphen). -/
def noAdjacentDashes : List Char → Bool
  | a :: b :: rest => !(a = '-' && b = '-') && noAdjacentDashes (b :: rest)
  | _ => true

/-- Prepending a character keeps the no-adjacent-hyphens property as long as
it does not form a hyphen pair with the previous head. -/
theorem noAdjacentDashes_cons_of (x : Char) (t : List Char)
    (ht : noAdjacentDashes t = true)
    (hx : ∀ y, t.head? = some y → ¬(x = '-' ∧ y = '-')) :
    noAdjacentDashes (x :: t) = true := by
  cases t with
  | nil => rfl
  | cons y ys =>
    rw [noAdjacentDashes, Bool.and_eq_true]
    refine ⟨?_, ht⟩
    have hxy := hx y rfl
    by_cases h1 : x = '-'
    · by_cases h2 : y = '-'
      · exact absurd ⟨h1, h2⟩ hxy
      · simp [h1, h2]
    · simp [h1]

/-- The run-collapser never emits two adjacent hyphens, and in run mode its
first emitted character is not a hyphen. -/
theorem collapseGo_chain (l : List Char) :
    noAdjacentDashes (collapseGo false l) = true ∧
    noAdjacentDashes (collapseGo true l) = true ∧
    (∀ c, (collapseGo true l).head? = some c → ¬ c = '-') := by
  induction l with
  | nil => exact ⟨rfl, rfl, by simp [collapseGo]⟩
  | cons x xs ih =>
    obtain ⟨ihF, ihT, ihH⟩ := ih
    cases hx : isDashSpace x with
    | true =>
      refine ⟨?_, ?_, ?_⟩
      · simp only [collapseGo, hx, if_true, Bool.false_eq_true, if_false]
        refine noAdjacentDashes_cons_of _ _ ihT ?_
        intro y hy hc
        exact ihH y hy hc.2
      · simp only [collapseGo, hx, if_true]
        exact ihT
      · simp only [collapseGo, hx, if_true]
        exact ihH
    | false =>
      have hxd : ¬ x = '-' := by
        intro hcontra
        rw [hcontra] at hx
        simp [isDashSpace] at hx
      refine ⟨?_, ?_, ?_⟩
      · simp only [collapseGo, hx, Bool.false_eq_true, if_false]
        exact noAdjacentDashes_cons_of _ _ ihF (fun y hy hc => hxd hc.1)
      · simp only [collapseGo, hx, Bool.false_eq_true, if_false]
        exact noAdjacentDashes_cons_of _ _ ihF (fun y hy hc => hxd hc.1)
      · simp only [collapseGo, hx, Bool.false_eq_true, if_false]
        intro c hc
        rw [List.head?_cons, Option.some_inj] at hc
        rw [← hc]
        exact hxd

/-- Dropping a prefix keeps only characters of the original list. -/
theorem mem_of_mem_dropWhile {p : Char → Bool} (l : List Char) (c : Char)
    (h : c ∈ l.dropWhile p) : c ∈ l := by
  induction l with
  | nil => simp at h
  | cons x xs ih =>
    rw [List.dropWhile_cons] at h
    by_cases hx : p x
    · rw [if_pos hx] at h
      exact List.mem_cons_of_mem x (ih h)
    · rw [if_neg hx] at h
      exact h

/-- Stripping keeps only characters of the original list. -/
theorem mem_of_mem_stripChars (l : List Char) (c : Char)
    (h : c ∈ stripChars l) : c ∈ l := by
  unfold stripChars at h
  rw [List.mem_reverse] at h
  have h1 := mem_of_mem_dropWhile _ _ h
  rw [List.mem_reverse] at h1
  exact mem_of_mem_dropWhile _ _ h1

/-! ### Claims about the sanitizer -/

/-- The sanitizer as claim C4 words it: keeps only characters in
{alphanumeric, whitespace, hyphen} — no underscore — then strips, collapses
runs, and falls back to the placeholder.  Stated only to compare against the
implemented `sanitize_foldername`, whose regex class `\w` also keeps
underscores. -/
def sanitizeSpecClaim (name : String) : String :=
  let cleaned :=
    stripChars (name.data.filter (fun c => c.isAlphanum || isSpace c || c = '-'))
  let collapsed := collapseGo false cleaned
  if collapsed.isEmpty then UNKNOWN_FACE_DIR_NAME else ⟨collapsed⟩

/-- C4 counterexample: on the input `"a_b"` the implemented sanitizer keeps
the underscore (the regex class `\w` contains it), while the claimed character
set {alphanumeric, whitespace, hyphen} would strip it; the two disagree. -/
theorem sanitize_underscore_counterexample :
    sanitize_foldername "a_b" = "a_b" ∧
    sanitizeSpecClaim "a_b" = "ab" ∧
    sanitize_foldername "a_b" ≠ sanitizeSpecClaim "a_b" := by
  decide

/-- C4 (amended): the sanitizer strips characters outside {alphanumeric,
underscore, whitespace, hyphen} (the regex class `\w` keeps underscores),
collapses every run of whitespace and hyphens into a single hyphen, and falls
back to the fixed placeholder when the result is empty: every output character
is alphanumeric, an underscore or a hyphen, hyphens are never adjacent, and
concretely "555-123-4567" maps to itself, "  John Doe!! " to "John-Doe",
"a  -  b" to "a-b", "!!!" to the placeholder, and "a_b" keeps its
underscore. -/
theorem sanitize_foldername_amended :
    (∀ (s : String) (c : Char), c ∈ (sanitize_foldername s).data →
      (c.isAlphanum || c = '_' || c = '-') = true) ∧
    (∀ s : String, noAdjacentDashes (sanitize_foldername s).data = true) ∧
    sanitize_foldername "555-123-4567" = "555-123-4567" ∧
    sanitize_foldername "  John Doe!! " = "John-Doe" ∧
    sanitize_foldername "a  -  b" = "a-b" ∧
    sanitize_foldername "!!!" = "unknown_user" ∧
    sanitize_foldername "a_b" = "a_b" := by
  refine ⟨?_, ?_, by decide, by decide, by decide, by decide, by decide⟩
  · intro s c hc
    simp only [sanitize_foldername] at hc
    split at hc
    · revert hc
      have hall : ∀ d ∈ UNKNOWN_FACE_DIR_NAME.data,
          (d.isAlphanum || d = '_' || d = '-') = true := by decide
      exact fun hc => hall c hc
    · rcases mem_collapseGo false _ c hc with h1 | ⟨h2, h3⟩
      · rw [h1]
        simp
      · have hk : keepChar c = true := by
          have hmem := mem_of_mem_stripChars _ c h2
          exact (List.mem_filter.mp hmem).2
        rw [keepChar, isWordChar] at hk
        rw [isDashSpace] at h3
        rcases Bool.or_eq_false_iff.mp h3 with ⟨hd, hs⟩
        rw [hd, hs] at hk
        simp only [Bool.or_false] at hk
        rw [hk]
        simp
  · intro s
    simp only [sanitize_foldername]
    split
    · decide
    · exact (collapseGo_chain _).1

/-- C10: a string accepted by phone-number validation (exactly ten digit
characters) passes through the folder-name sanitizer unchanged, so the
per-user output directory is named by the raw phone number. -/
theorem phone_folder_raw (s : String) (h : (validate_phone_number s).1 = true) :
    sanitize_foldername s = s ∧
    (∀ (m : Option (List String)) (base : String) (c : String → Bool) (fs : FS),
      (create_user_folder_and_copy_photos s m base c fs).userDir = pathJoin base s) := by
  rw [validate_phone_number] at h
  split at h
  case isFalse => simp at h
  case isTrue hcond =>
  rw [Bool.and_eq_true, Bool.and_eq_true] at hcond
  obtain ⟨⟨hall, hne⟩, hlen⟩ := hcond
  rw [List.all_eq_true] at hall
  rw [Bool.not_eq_eq_eq_not, Bool.not_true] at hne
  have hdash : ∀ c ∈ s.data, isDashSpace c = false := by
    intro c hc
    have hdig := hall c hc
    rw [isDashSpace, isSpace]
    by_cases h1 : c = '-'
    · subst h1; exact absurd hdig (by decide)
    by_cases h2 : c = ' '
    · subst h2; exact absurd hdig (by decide)
    by_cases h3 : c = '\t'
    · subst h3; exact absurd hdig (by decide)
    by_cases h4 : c = '\n'
    · subst h4; exact absurd hdig (by decide)
    by_cases h5 : c = '\r'
    · subst h5; exact absurd hdig (by decide)
    by_cases h6 : c = '\x0b'
    · subst h6; exact absurd hdig (by decide)
    by_cases h7 : c = '\x0c'
    · subst h7; exact absurd hdig (by decide)
    simp [h1, h2, h3, h4, h5, h6, h7]
  have hfilter : s.data.filter keepChar = s.data := by
    rw [List.filter_eq_self]
    intro c hc
    rw [keepChar, isWordChar, Char.isAlphanum]
    rw [hall c hc]
    simp
  have hspace : ∀ c ∈ s.data, isSpace c = false := by
    intro c hc
    have := hdash c hc
    rw [isDashSpace, Bool.or_eq_false_iff] at this
    exact this.2
  have hdropF : s.data.dropWhile isSpace = s.data := by
    cases he : s.data with
    | nil => rfl
    | cons x xs =>
      rw [List.dropWhile_cons, if_neg]
      rw [hspace x (by rw [he]; exact List.mem_cons_self _ _)]
      simp
  have hdropR : s.data.reverse.dropWhile isSpace = s.data.reverse := by
    cases he : s.data.reverse with
    | nil => rfl
    | cons x xs =>
      rw [List.dropWhile_cons, if_neg]
      have hx : x ∈ s.data := by
        rw [← List.mem_reverse, he]
        exact List.mem_cons_self _ _
      rw [hspace x hx]
      simp
  have hstrip : stripChars s.data = s.data := by
    rw [stripChars, hdropF, hdropR, List.reverse_reverse]
  have hcollapse : collapseGo false s.data = s.data := by
    have : ∀ l : List Char, (∀ c ∈ l, isDashSpace c = false) →
        collapseGo false l = l := by
      intro l
      induction l with
      | nil => intro _; rfl
      | cons x xs ih =>
        intro hl
        rw [collapseGo, if_neg, ih (fun c hc => hl c (List.mem_cons_of_mem x hc))]
        rw [hl x (List.mem_cons_self _ _)]
        simp
    exact this s.data hdash
  have hsan : sanitize_foldername s = s := by
    rw [sanitize_foldername]
    simp only [hfilter, hstrip, hcollapse]
    rw [if_neg (by simp [hne])]
  refine ⟨hsan, ?_⟩
  intro m base c fs
  simp only [create_user_folder_and_copy_photos]
  rw [hsan]

/-- C10 witness: the valid phone number "5551234567" is its own folder
name. -/
theorem phone_folder_raw_witness :
    (validate_phone_number "5551234567").1 = true ∧
    sanitize_foldername "5551234567" = "5551234567" :=
  ⟨by decide, (phone_folder_raw "5551234567" (by decide)).1⟩

/-! ### Helper lemmas about the organizer -/

/-- Reading back a point update. -/
theorem updateFS_self (fs : FS) (k : String) (v : Option (Finset String)) :
    updateFS fs k v k = v := by
  simp [updateFS]

/-- Two successive updates of the same directory collapse to the second. -/
theorem updateFS_updateFS (fs : FS) (k : String) (v w : Option (Finset String)) :
    updateFS (updateFS fs k v) k w = updateFS fs k w := by
  funext n
  by_cases h : n = k
  · simp [updateFS, h]
  · simp [updateFS, h]

/-- Closed form of the copy loop started on a freshly written directory: the
directory ends up holding the basenames of the successfully copied photos, the
returned paths are their destinations in order, and the counter is the number
of successful copies.  Nothing else of the filesystem changes. -/
theorem copyLoop_spec (userDir : String) (c : String → Bool) (ps : List String) :
    ∀ (fs : FS) (s : Finset String),
      copyLoop userDir c ps (updateFS fs userDir (some s)) =
        (updateFS fs userDir
            (some (ps.foldl (fun t p => if c p then insert (basename p) t else t) s)),
          (ps.filter c).map (fun p => pathJoin userDir (basename p)),
          (ps.filter c).length) := by
  induction ps with
  | nil => intro fs s; rfl
  | cons p rest ih =>
    intro fs s
    by_cases hc : c p
    · simp only [copyLoop, hc, if_true, updateFS_self, Option.getD_some]
      rw [updateFS_updateFS, ih fs (insert (basename p) s)]
      simp [List.filter_cons, hc]
    · simp only [copyLoop, hc, Bool.false_eq_true, if_false]
      rw [ih fs s]
      simp [List.filter_cons, hc]

/-- Closed form of the organizer: whatever the previous state of the user
directory, the run leaves it holding exactly the basenames of the
successfully copied matches, and returns data independent of the initial
filesystem. -/
theorem create_spec (uid : String) (m : Option (List String)) (base : String)
    (c : String → Bool) (fs : FS) :
    create_user_folder_and_copy_photos uid m base c fs =
      { fs := updateFS fs (pathJoin base (sanitize_foldername uid))
          (some ((m.getD []).foldl
            (fun t p => if c p then insert (basename p) t else t) ∅)),
        msg := if 0 < ((m.getD []).filter c).length
          then Msg.copySuccess ((m.getD []).filter c).length (sanitize_foldername uid)
          else Msg.copyNone (sanitize_foldername uid),
        userDir := pathJoin base (sanitize_foldername uid),
        copied := ((m.getD []).filter c).map
          (fun p => pathJoin (pathJoin base (sanitize_foldername uid)) (basename p)) } := by
  simp only [create_user_folder_and_copy_photos]
  have hfs2 : updateFS
      (if (fs (pathJoin base (sanitize_foldername uid))).isSome
        then updateFS fs (pathJoin base (sanitize_foldername uid)) none else fs)
      (pathJoin base (sanitize_foldername uid)) (some ∅) =
      updateFS fs (pathJoin base (sanitize_foldername uid)) (some ∅) := by
    split
    · exact updateFS_updateFS fs _ none (some ∅)
    · rfl
  rw [hfs2, copyLoop_spec (pathJoin base (sanitize_foldername uid)) c (m.getD []) fs ∅]

/-- C7: the organizer is idempotent — running it a second time with the same
user identifier, match list, copy outcomes and base directory from the state
the first run produced yields exactly the first run result again, because the
pre-existing user folder is deleted and recreated rather than merged into. -/
theorem organize_idempotent (uid : String) (m : Option (List String))
    (base : String) (c : String → Bool) (fs : FS) :
    create_user_folder_and_copy_photos uid m base c
      (create_user_folder_and_copy_photos uid m base c fs).fs =
    create_user_folder_and_copy_photos uid m base c fs := by
  rw [create_spec uid m base c fs]
  rw [create_spec uid m base c (updateFS fs (pathJoin base (sanitize_foldername uid))
    (some ((m.getD []).foldl
      (fun t p => if c p then insert (basename p) t else t) ∅)))]
  rw [updateFS_updateFS]

/-! ### Helper lemmas about the request handler -/

/-- The last status line of an extended status list is the appended line. -/
theorem lastMsg_append (l1 l2 : List Msg) (h : l2 ≠ []) :
    lastMsg (l1 ++ l2) = lastMsg l2 := by
  rw [lastMsg, lastMsg, List.foldl_append]
  cases l2 with
  | nil => exact absurd rfl h
  | cons x xs => rfl

/-- A failed phone validation returns the invalid-phone message. -/
theorem validate_phone_false_msg (phone : String)
    (h : (validate_phone_number phone).1 = false) :
    (validate_phone_number phone).2 = Msg.invalidPhone := by
  rw [validate_phone_number] at h ⊢
  split at h
  next hc => simp at h
  next hc => rw [if_neg hc]

/-- A failed email validation returns the invalid-email message. -/
theorem validate_email_false_msg (email : String)
    (h : (validate_email_address email).1 = false) :
    (validate_email_address email).2 = Msg.invalidEmail := by
  rw [validate_email_address] at h ⊢
  split at h
  next hc => simp at h
  next hc => rw [if_neg hc]

/-- Resolving the encodings never touches the output filesystem (it only ever
writes the encodings file). -/
theorem resolveEncodings_outFS (frc : Bool)
    (listing : Option (List (String × FileResult))) (st : SysState) :
    (resolveEncodings frc listing st).2.2.outFS = st.outFS := by
  simp only [resolveEncodings]
  split
  · split
    · split
      · rfl
      · rfl
    · rfl
  · rfl

/-- When resolving short-circuits, its appended messages are exactly the load
report, the rescan note and the source-directory error. -/
theorem resolveEncodings_none (frc : Bool)
    (listing : Option (List (String × FileResult))) (st : SysState)
    (h : (resolveEncodings frc listing st).1 = none) :
    ∃ m, (resolveEncodings frc listing st).2.1 =
      [Msg.encodingStatus m, Msg.rescanNote, Msg.srcDirError] := by
  simp only [resolveEncodings] at h ⊢
  split at h
  next hc =>
    split at h
    next hc2 =>
      rw [if_pos hc, if_pos hc2]
      exact ⟨(load_known_encodings st.encFile).2.2, rfl⟩
    next hc2 => simp at h
  next hc => simp at h

/-- C8: whenever the phone number is malformed, the email is malformed, the
selfie is missing, or the selfie contains no detectable face, the request
handler returns with no preview gallery and no archive path, its status ends
in an error message, and the output filesystem is untouched — no matching or
organizing is performed. -/
theorem request_validation_short_circuit (phone email : String) (selfie : Selfie)
    (frc : Bool) (listing : Option (List (String × FileResult)))
    (copyOk : String → Bool) (zipOk : Bool) (uuidHex : String) (st : SysState)
    (h : (validate_phone_number phone).1 = false ∨
      (validate_email_address email).1 = false ∨
      selfie = Selfie.missing ∨ selfie = Selfie.noFace) :
    (process_request_gradio phone email selfie frc listing copyOk zipOk uuidHex
      st).1.gallery = none ∧
    (process_request_gradio phone email selfie frc listing copyOk zipOk uuidHex
      st).1.archive = none ∧
    Msg.isErr (lastMsg (process_request_gradio phone email selfie frc listing
      copyOk zipOk uuidHex st).1.status) = true ∧
    (process_request_gradio phone email selfie frc listing copyOk zipOk uuidHex
      st).2.outFS = st.outFS := by
  by_cases hp : (validate_phone_number phone).1 = true
  · by_cases he : (validate_email_address email).1 = true
    · cases selfie with
      | missing =>
        have hproc : process_request_gradio phone email Selfie.missing frc listing
            copyOk zipOk uuidHex st = (⟨[Msg.selfieMissing], none, none⟩, st) := by
          rw [process_request_gradio, if_neg (by simp [hp]), if_neg (by simp [he]),
            if_pos rfl]
        rw [hproc]
        exact ⟨rfl, rfl, rfl, rfl⟩
      | face e =>
        rcases h with h1 | h1 | h1 | h1
        · rw [hp] at h1
          exact Bool.noConfusion h1
        · rw [he] at h1
          exact Bool.noConfusion h1
        · exact Selfie.noConfusion h1
        · exact Selfie.noConfusion h1
      | noFace =>
        rcases hres : resolveEncodings frc listing st with ⟨o, ms, st1⟩
        have houtFS : st1.outFS = st.outFS := by
          have hh := resolveEncodings_outFS frc listing st
          rw [hres] at hh
          exact hh
        cases o with
        | none =>
          obtain ⟨m, hm⟩ := resolveEncodings_none frc listing st (by rw [hres])
          rw [hres] at hm
          have hms : ms = [Msg.encodingStatus m, Msg.rescanNote, Msg.srcDirError] := hm
          have hproc : process_request_gradio phone email Selfie.noFace frc listing
              copyOk zipOk uuidHex st =
              (⟨[Msg.started, Msg.inputsValidated] ++ ms, none, none⟩, st1) := by
            rw [process_request_gradio, if_neg (by simp [hp]), if_neg (by simp [he]),
              if_neg (fun hh => Selfie.noConfusion hh), hres]
          refine ⟨?_, ?_, ?_, ?_⟩
          · rw [hproc]
          · rw [hproc]
          · rw [hproc]
            show Msg.isErr (lastMsg ([Msg.started, Msg.inputsValidated] ++ ms)) = true
            rw [hms, lastMsg_append _ _ (by simp)]
            rfl
          · rw [hproc]
            exact houtFS
        | some known =>
          have hproc : process_request_gradio phone email Selfie.noFace frc listing
              copyOk zipOk uuidHex st =
              (⟨([Msg.started, Msg.inputsValidated] ++ ms ++
                  (if known.1.isEmpty then [Msg.noEncodingsWarning] else []) ++
                  [Msg.processingSelfie]) ++ [Msg.selfieNoFace], none, none⟩,
                st1) := by
            rw [process_request_gradio, if_neg (by simp [hp]), if_neg (by simp [he]),
              if_neg (fun hh => Selfie.noConfusion hh), hres]
            rfl
          refine ⟨?_, ?_, ?_, ?_⟩
          · rw [hproc]
          · rw [hproc]
          · rw [hproc]
            rw [lastMsg_append _ _ (by simp)]
            rfl
          · rw [hproc]
            exact houtFS
    · have he' : (validate_email_address email).1 = false := by
        rwa [Bool.not_eq_true] at he
      have hproc : process_request_gradio phone email selfie frc listing copyOk
          zipOk uuidHex st =
          (⟨[(validate_email_address email).2], none, none⟩, st) := by
        rw [process_request_gradio, if_neg (by simp [hp]), if_pos (by simp [he'])]
      rw [hproc, validate_email_false_msg email he']
      exact ⟨rfl, rfl, rfl, rfl⟩
  · have hp' : (validate_phone_number phone).1 = false := by
      rwa [Bool.not_eq_true] at hp
    have hproc : process_request_gradio phone email selfie frc listing copyOk
        zipOk uuidHex st =
        (⟨[(validate_phone_number phone).2], none, none⟩, st) := by
      rw [process_request_gradio, if_pos (by simp [hp'])]
    rw [hproc, validate_phone_false_msg phone hp']
    exact ⟨rfl, rfl, rfl, rfl⟩

/-- C8 witness: a three-digit phone number is rejected with no gallery, no
archive, an error status and an untouched output filesystem. -/
theorem request_validation_short_circuit_witness :
    (validate_phone_number "123").1 = false ∧
    (process_request_gradio "123" "user@example.com" Selfie.missing false none
      (fun _ => true) true "abcdef" ⟨StoredFile.absent, fun _ => none⟩).1.gallery
        = none ∧
    (process_request_gradio "123" "user@example.com" Selfie.missing false none
      (fun _ => true) true "abcdef" ⟨StoredFile.absent, fun _ => none⟩).1.archive
        = none ∧
    Msg.isErr (lastMsg (process_request_gradio "123" "user@example.com"
      Selfie.missing false none (fun _ => true) true "abcdef"
      ⟨StoredFile.absent, fun _ => none⟩).1.status) = true ∧
    (process_request_gradio "123" "user@example.com" Selfie.missing false none
      (fun _ => true) true "abcdef" ⟨StoredFile.absent, fun _ => none⟩).2.outFS =
      (⟨StoredFile.absent, fun _ => none⟩ : SysState).outFS :=
  ⟨by decide,
    request_validation_short_circuit "123" "user@example.com" Selfie.missing false
      none (fun _ => true) true "abcdef" ⟨StoredFile.absent, fun _ => none⟩
      (Or.inl (by decide))⟩

/-- C4 witness: the letter J survives sanitizing "  John Doe!! " and is in
the permitted output character set. -/
theorem sanitize_foldername_amended_witness :
    'J' ∈ (sanitize_foldername "  John Doe!! ").data ∧
    ('J'.isAlphanum || 'J' = '_' || 'J' = '-') = true :=
  ⟨by decide, sanitize_foldername_amended.1 "  John Doe!! " 'J' (by decide)⟩
